import Mathlib

/-
Verification development for the video-splitter web server (`server.py`).

The Python source is shallowly embedded below:
  * pure string helpers model the CPython primitives the code calls
    (`str.strip`, `str.split` with a one-character separator,
    `str.replace` with one-character arguments, `int(...)`,
    `os.path.splitext`), restricted to ASCII whitespace/digits, which is
    the alphabet the server's inputs use;
  * `parse_timestamp`, `parse_timestamp_ranges`, `get_first_word`,
    `allowed_file`, `split_video`, `download_clip` and
    `cleanup_temp_files` are direct translations of the functions of the
    same names, with Python exceptions rendered as `Except`/explicit
    error responses;
  * the side effects of `split_video` (ffmpeg subprocess invocations,
    file writes, directory creation/removal, the module-global
    `temp_clips` dict) are made explicit through a `World` state record
    threaded through the functions, and the external collaborators
    (ffmpeg, `tempfile.mkdtemp`, `os.urandom`, werkzeug's
    `secure_filename`, the filesystem probes) are supplied as an `Env`
    of oracles.
-/

/-! ## String helpers modelling CPython primitives -/

/-- ASCII whitespace recognised by Python's `str.strip()`
(space, tab, newline, carriage return, vertical tab, form feed). -/
def isPySpace (c : Char) : Bool :=
  c = ' ' || c = '\t' || c = '\n' || c = '\r' || c = Char.ofNat 11 || c = Char.ofNat 12

/-- Drop characters satisfying `p` from both ends of a character list. -/
def stripWhile (p : Char → Bool) (cs : List Char) : List Char :=
  ((cs.dropWhile p).reverse.dropWhile p).reverse

/-- Python `str.strip()` (for ASCII whitespace). -/
def pyStrip (s : String) : String :=
  ⟨stripWhile isPySpace s.data⟩

/-- Helper for `splitChar`: split a character list at every occurrence of
`sep`, accumulating the current (reversed) chunk. -/
def splitCharAux (sep : Char) : List Char → List Char → List (List Char)
  | [], cur => [cur.reverse]
  | c :: cs, cur =>
    if c = sep then cur.reverse :: splitCharAux sep cs []
    else splitCharAux sep cs (c :: cur)

/-- Python `str.split(sep)` for a one-character separator `sep`
(`"".split(sep) = [""]`, empty chunks are kept). -/
def splitChar (s : String) (sep : Char) : List String :=
  (splitCharAux sep s.data []).map (fun l => ⟨l⟩)

/-- Python `str.replace(old, new)` for one-character `old`/`new`. -/
def replaceChar (s : String) (old new : Char) : String :=
  ⟨s.data.map (fun c => if c = old then new else c)⟩

/-- Python `c in s` for a single character `c`. -/
def hasChar (s : String) (c : Char) : Bool :=
  s.data.contains c

/-- First chunk of a split, i.e. the substring before the first
occurrence of `c` (the whole string when `c` is absent). -/
def beforeFirst (s : String) (c : Char) : String :=
  ⟨s.data.takeWhile (fun x => x ≠ c)⟩

/-- Index of the last occurrence of `c` in `cs`, if any. -/
def lastIdxAux (c : Char) : List Char → Nat → Option Nat → Option Nat
  | [], _, acc => acc
  | x :: r, i, acc => lastIdxAux c r (i + 1) (if x = c then some i else acc)

/-- Index of the last occurrence of `c`, if any. -/
def lastIdx? (cs : List Char) (c : Char) : Option Nat :=
  lastIdxAux c cs 0 none

/-- Python `str.rfind(c)`: index of the last occurrence, `-1` if absent. -/
def rfindI (cs : List Char) (c : Char) : Int :=
  match lastIdx? cs c with
  | some i => (i : Int)
  | none => -1

/-- Python `os.path.splitext` (posix variant, `'/'` as the directory
separator): split off the last dot-delimited extension, except that a
basename consisting only of leading dots is not split. -/
def splitext (p : String) : String × String :=
  let cs := p.data
  let sepIndex := rfindI cs '/'
  let dotIndex := rfindI cs '.'
  if sepIndex < dotIndex then
    let mid := (cs.take dotIndex.toNat).drop (sepIndex + 1).toNat
    if mid.any (fun c => c ≠ '.') then
      (⟨cs.take dotIndex.toNat⟩, ⟨cs.drop dotIndex.toNat⟩)
    else (p, "")
  else (p, "")

/-- Substring after the last `'.'` — Python `filename.rsplit('.', 1)[1]`
when a dot is present (returns `s` itself when no dot occurs). -/
def afterLastDot (s : String) : String :=
  match lastIdx? s.data '.' with
  | some i => ⟨s.data.drop (i + 1)⟩
  | none => s

/-- Python `str.lower()` restricted to ASCII letters. -/
def lowerStr (s : String) : String :=
  ⟨s.data.map Char.toLower⟩

/-! ## Python `int(...)` on strings -/

/-- Tail of a Python integer literal after its first digit: digits with
single underscores allowed between digits. -/
def pyDigitsTail : List Char → Bool
  | [] => true
  | ['_'] => false
  | '_' :: c :: rest => c.isDigit && pyDigitsTail rest
  | c :: rest => c.isDigit && pyDigitsTail rest

/-- Digit part of a Python integer literal: nonempty, starts with a
digit, single underscores allowed between digits. -/
def pyDigitsOk : List Char → Bool
  | [] => false
  | c :: rest => c.isDigit && pyDigitsTail rest

/-- Decimal value of a digit list (underscore separators skipped). -/
def digitsVal (cs : List Char) : Nat :=
  (cs.filter (fun c => c ≠ '_')).foldl (fun n c => n * 10 + (c.toNat - 48)) 0

/-- Python `int(s)`: strip whitespace, optional sign, then decimal
digits; `none` models the `ValueError` raised on anything else.
(ASCII digits/whitespace only, as in the server's inputs.) -/
def pyInt? (s : String) : Option Int :=
  let t := stripWhile isPySpace s.data
  match t with
  | '+' :: rest => if pyDigitsOk rest then some ((digitsVal rest : Nat) : Int) else none
  | '-' :: rest => if pyDigitsOk rest then some (-((digitsVal rest : Nat) : Int)) else none
  | _ => if pyDigitsOk t then some ((digitsVal t : Nat) : Int) else none

/-- `int(s)` as an `Except`, with the `ValueError` message. -/
def pyIntE (s : String) : Except String Int :=
  match pyInt? s with
  | some n => .ok n
  | none => .error ("invalid literal for int() with base 10: '" ++ s ++ "'")

/-! ## `parse_timestamp` (server.py lines 512-520) -/

/-- `parse_timestamp(timestamp)`: strip, split on `':'`; two tokens are
`mm:ss`, three tokens are `hh:mm:ss`, anything else raises
`ValueError(f"Invalid timestamp format: {timestamp}")`. -/
def parse_timestamp (timestamp : String) : Except String Int :=
  match splitChar (pyStrip timestamp) ':' with
  | [m, s] =>
    match pyIntE m with
    | .error e => .error e
    | .ok mv =>
      match pyIntE s with
      | .error e => .error e
      | .ok sv => .ok (mv * 60 + sv)
  | [h, m, s] =>
    match pyIntE h with
    | .error e => .error e
    | .ok hv =>
      match pyIntE m with
      | .error e => .error e
      | .ok mv =>
        match pyIntE s with
        | .error e => .error e
        | .ok sv => .ok (hv * 3600 + mv * 60 + sv)
  | _ => .error ("Invalid timestamp format: " ++ timestamp)

/-! ## `parse_timestamp_ranges` (server.py lines 522-547) -/

/-- One element of the `ranges` list built by `parse_timestamp_ranges`:
the Python dict `{'start', 'end', 'start_str', 'end_str'}` (`end` is a
Lean keyword, so the field is named `stop`). -/
structure TimeRange where
  start : Int
  stop : Int
  start_str : String
  stop_str : String
deriving Repr, DecidableEq

/-- Body of the `for range_str in timestamps_text.split(',')` loop of
`parse_timestamp_ranges`: blank chunks are skipped, a chunk must split
on `'-'` into exactly two parts, both parts must parse, and
`start >= end` raises. Appending to the result list in loop order is
rendered as cons-recursion. -/
def parseRangesAux : List String → Except String (List TimeRange)
  | [] => .ok []
  | s :: rest =>
    let t := pyStrip s
    if t = "" then parseRangesAux rest
    else
      match splitChar t '-' with
      | [p1, p2] =>
        match parse_timestamp (pyStrip p1) with
        | .error e => .error e
        | .ok a =>
          match parse_timestamp (pyStrip p2) with
          | .error e => .error e
          | .ok b =>
            if a ≥ b then
              .error ("Invalid range: start time must be before end time in " ++ t)
            else
              match parseRangesAux rest with
              | .error e => .error e
              | .ok rs => .ok ({ start := a, stop := b,
                                 start_str := pyStrip p1, stop_str := pyStrip p2 } :: rs)
      | _ => .error ("Invalid range format: " ++ t)

/-- `parse_timestamp_ranges(timestamps_text)`. -/
def parse_timestamp_ranges (timestamps_text : String) : Except String (List TimeRange) :=
  parseRangesAux (splitChar timestamps_text ',')

/-- Parse of a single already-stripped, non-blank range chunk, written
from the spec's description of one candidate range string; used to state
that `parse_timestamp_ranges` is exactly this parse mapped in order over
the non-blank chunks. -/
def parseSeg (t : String) : Except String TimeRange :=
  match splitChar t '-' with
  | [p1, p2] =>
    match parse_timestamp (pyStrip p1) with
    | .error e => .error e
    | .ok a =>
      match parse_timestamp (pyStrip p2) with
      | .error e => .error e
      | .ok b =>
        if a ≥ b then
          .error ("Invalid range: start time must be before end time in " ++ t)
        else
          .ok { start := a, stop := b, start_str := pyStrip p1, stop_str := pyStrip p2 }
  | _ => .error ("Invalid range format: " ++ t)

/-- Order-preserving sequencing of `parseSeg` over a chunk list. -/
def parseSegs : List String → Except String (List TimeRange)
  | [] => .ok []
  | t :: rest =>
    match parseSeg t with
    | .error e => .error e
    | .ok r =>
      match parseSegs rest with
      | .error e => .error e
      | .ok rs => .ok (r :: rs)

/-! ## `get_first_word` (server.py lines 549-564) -/

/-- `get_first_word(filename)`: strip the extension, return the chunk
before the first space if a space occurs, else before the first
delimiter among `'_'`, `'-'`, `'.'` in that priority order, else the
whole stripped name, with `"clip"` only as the final fallback for an
empty stripped name. -/
def get_first_word (filename : String) : String :=
  let name_without_ext := (splitext filename).1
  if hasChar name_without_ext ' ' then (splitChar name_without_ext ' ').headD ""
  else if hasChar name_without_ext '_' then (splitChar name_without_ext '_').headD ""
  else if hasChar name_without_ext '-' then (splitChar name_without_ext '-').headD ""
  else if hasChar name_without_ext '.' then (splitChar name_without_ext '.').headD ""
  else if name_without_ext ≠ "" then name_without_ext
  else "clip"

/-! ## Output filename and upload gate -/

/-- The clip display name built at server.py line 664:
`f"{first_word}-{i}-[{start_str.replace(':', '_')} - {end_str.replace(':', '_')}].mp4"`. -/
def output_filename (first_word : String) (i : Nat) (start_str stop_str : String) : String :=
  first_word ++ "-" ++ toString i ++ "-[" ++ replaceChar start_str ':' '_' ++ " - " ++
    replaceChar stop_str ':' '_' ++ "].mp4"

/-- `ALLOWED_EXTENSIONS` (a Python set literal; listed in source order —
set iteration order is unspecified in Python, membership is what the
code relies on). -/
def ALLOWED_EXTENSIONS : List String :=
  ["mp4", "avi", "mov", "mkv", "webm", "flv", "wmv", "mpg", "mpeg", "m4v"]

/-- `allowed_file(filename)`:
`'.' in filename and filename.rsplit('.', 1)[1].lower() in ALLOWED_EXTENSIONS`. -/
def allowed_file (filename : String) : Bool :=
  hasChar filename '.' && ALLOWED_EXTENSIONS.contains (lowerStr (afterLastDot filename))

/-! ## The effectful world of `split_video` -/

/-- One value of the module-global `temp_clips` dict:
`{'path': ..., 'filename': ..., 'temp_dir': ...}`. -/
structure ClipInfo where
  path : String
  filename : String
  temp_dir : String
deriving Repr, DecidableEq

/-- Observable state threaded through the embedded handlers:
the `temp_clips` registry, the set of existing directories, the files
written so far (path, bytes; later writes shadow earlier ones), and the
ordered trace of external `ffmpeg` invocations (each an argv list). -/
structure World where
  temp_clips : List (String × ClipInfo)
  dirs : List String
  files : List (String × String)
  procs : List (List String)
deriving Repr, DecidableEq

/-- One element of the `clips_info` list returned by `/split`:
`{'id': ..., 'filename': ...}` with the id present only for
download-destined clips. -/
structure ClipDescriptor where
  id : Option String
  filename : String
deriving Repr, DecidableEq

/-- The JSON responses `/split` can produce. -/
inductive Response where
  | errorResp (status : Nat) (error : String)
  | okClips (clips : List ClipDescriptor)
  | okSaved (clips : List ClipDescriptor) (saved_to_path : String)
deriving Repr, DecidableEq

/-- What `os.path.exists` / `os.path.isdir` report for the requested
output path. -/
inductive PathState where
  | missing
  | dir
  | file
deriving Repr, DecidableEq

/-- Oracles for the external collaborators of `split_video`: the ffmpeg
binary (exit code and stderr per argv, plus the bytes a successful cut
writes), the uploaded bytes, `tempfile.mkdtemp`, the `os.urandom(8).hex()`
token drawn for the `i`-th range, werkzeug's `secure_filename`, the
filesystem probe for the requested output path, and whether
`os.makedirs` succeeds (with the exception text when it fails). -/
structure Env where
  ffmpeg_cmd : String
  cutter : List String → Nat × String
  clipBytes : List String → String
  upload : String
  temp_dir : String
  mint : Nat → String
  secure : String → String
  pathState : String → PathState
  makedirsOk : Bool
  makedirsErr : String

/-- First-match association-list lookup, modelling Python dict lookup
(`temp_clips` only ever holds one entry per key). -/
def lookupC : List (String × ClipInfo) → String → Option ClipInfo
  | [], _ => none
  | e :: rest, k => if e.1 = k then some e.2 else lookupC rest k

/-- Python dict insertion `temp_clips[clip_id] = v`: overwrite in place
when the key exists, else append (dicts preserve insertion order). -/
def dictInsert (m : List (String × ClipInfo)) (k : String) (v : ClipInfo) :
    List (String × ClipInfo) :=
  match lookupC m k with
  | some _ => m.map (fun e => if e.1 = k then (k, v) else e)
  | none => m ++ [(k, v)]

/-- Bytes currently on disk at `p` (last write wins). -/
def lookupF (files : List (String × String)) (p : String) : Option String :=
  files.foldl (fun acc e => if e.1 = p then some e.2 else acc) none

/-- `path` lies strictly inside directory `d`. -/
def underDir (d path : String) : Bool :=
  (d ++ "/").data.isPrefixOf path.data

/-- `shutil.rmtree(d, ignore_errors=True)`: remove the directory, its
subdirectories and the files under it. -/
def rmtreeW (w : World) (d : String) : World :=
  { w with dirs := w.dirs.filter (fun x => x ≠ d && !underDir d x),
           files := w.files.filter (fun f => !underDir d f.1) }

/-! ## `split_video` (server.py lines 599-750) -/

/-- The stream-copy ffmpeg argv built at server.py lines 678-687. -/
def copyArgs (ffmpeg input_path : String) (start dur : Int) (out : String) : List String :=
  [ffmpeg, "-i", input_path, "-ss", toString start, "-t", toString dur,
   "-c", "copy", "-avoid_negative_ts", "make_zero", "-y", out]

/-- The re-encode fallback ffmpeg argv built at server.py lines 696-705. -/
def reencodeArgs (ffmpeg input_path : String) (start dur : Int) (out : String) : List String :=
  [ffmpeg, "-i", input_path, "-ss", toString start, "-t", toString dur,
   "-c:v", "libx264", "-c:a", "aac", "-y", out]

/-- Output location of one clip: the requested directory when
`save_to_path`, else the job's scratch directory (`os.path.join`). -/
def clipDest (sp : Bool) (output_path temp_dir fn : String) : String :=
  (if sp then output_path else temp_dir) ++ "/" ++ fn

/-- Stream-copy argv for the range at 1-based position `i`. -/
def copyCmdOf (env : Env) (sp : Bool) (op td ip fw : String) (i : Nat) (r : TimeRange) :
    List String :=
  copyArgs env.ffmpeg_cmd ip r.start (r.stop - r.start)
    (clipDest sp op td (output_filename fw i r.start_str r.stop_str))

/-- Re-encode argv for the range at 1-based position `i`. -/
def reencodeCmdOf (env : Env) (sp : Bool) (op td ip fw : String) (i : Nat) (r : TimeRange) :
    List String :=
  reencodeArgs env.ffmpeg_cmd ip r.start (r.stop - r.start)
    (clipDest sp op td (output_filename fw i r.start_str r.stop_str))

/-- `clip_id = f"clip_{i}_{os.urandom(8).hex()}"`. -/
def clipId (env : Env) (i : Nat) : String :=
  "clip_" ++ toString i ++ "_" ++ env.mint i

/-- World update for a range whose stream-copy invocation succeeds:
record the invocation, the written clip, and (for a download-destined
job) the `temp_clips` registration. -/
def stepCopyOk (env : Env) (sp : Bool) (op td ip fw : String) (i : Nat) (r : TimeRange)
    (w : World) : World :=
  let fn := output_filename fw i r.start_str r.stop_str
  let c1 := copyCmdOf env sp op td ip fw i r
  let w' : World := { w with procs := w.procs ++ [c1],
                             files := w.files ++ [(clipDest sp op td fn, env.clipBytes c1)] }
  if sp then w'
  else { w' with temp_clips := dictInsert w'.temp_clips (clipId env i)
                   ⟨clipDest sp op td fn, fn, td⟩ }

/-- World update for a range whose stream-copy invocation fails but
whose re-encode retry succeeds: both invocations are recorded. -/
def stepRetryOk (env : Env) (sp : Bool) (op td ip fw : String) (i : Nat) (r : TimeRange)
    (w : World) : World :=
  let fn := output_filename fw i r.start_str r.stop_str
  let c1 := copyCmdOf env sp op td ip fw i r
  let c2 := reencodeCmdOf env sp op td ip fw i r
  let w' : World := { w with procs := w.procs ++ [c1, c2],
                             files := w.files ++ [(clipDest sp op td fn, env.clipBytes c2)] }
  if sp then w'
  else { w' with temp_clips := dictInsert w'.temp_clips (clipId env i)
                   ⟨clipDest sp op td fn, fn, td⟩ }

/-- The descriptor appended to `clips_info` for the range at position
`i`: with an id for download-destined jobs, without one otherwise. -/
def descOf (env : Env) (sp : Bool) (fw : String) (i : Nat) (r : TimeRange) : ClipDescriptor :=
  if sp then ⟨none, output_filename fw i r.start_str r.stop_str⟩
  else ⟨some (clipId env i), output_filename fw i r.start_str r.stop_str⟩

/-- The `for i, range_info in enumerate(ranges, 1)` loop of
`split_video` (lines 662-727): per range, run the stream-copy cut; on a
non-zero exit retry once with the re-encode argv; if that also exits
non-zero, raise `Exception(f"FFmpeg failed: {result.stderr}")`, which
aborts the remaining ranges. -/
def runRanges (env : Env) (sp : Bool) (op td ip fw : String) :
    List TimeRange → Nat → World → List ClipDescriptor →
    World × Except String (List ClipDescriptor)
  | [], _, w, acc => (w, .ok acc)
  | r :: rest, i, w, acc =>
    if (env.cutter (copyCmdOf env sp op td ip fw i r)).1 ≠ 0 then
      if (env.cutter (reencodeCmdOf env sp op td ip fw i r)).1 ≠ 0 then
        ({ w with procs := w.procs ++ [copyCmdOf env sp op td ip fw i r,
                                       reencodeCmdOf env sp op td ip fw i r] },
         .error ("FFmpeg failed: " ++ (env.cutter (reencodeCmdOf env sp op td ip fw i r)).2))
      else
        runRanges env sp op td ip fw rest (i + 1) (stepRetryOk env sp op td ip fw i r w)
          (acc ++ [descOf env sp fw i r])
    else
      runRanges env sp op td ip fw rest (i + 1) (stepCopyOk env sp op td ip fw i r w)
        (acc ++ [descOf env sp fw i r])

/-- Output-path validation block of `split_video` (lines 623-638): an
empty path means download mode; a missing path is created with
`os.makedirs` (a failure is a 400), an existing non-directory is a 400,
an existing directory is used as-is. -/
def resolve_output (env : Env) (w : World) (output_path : String) :
    Except (World × Response) (Bool × World) :=
  if output_path ≠ "" then
    match env.pathState output_path with
    | .missing =>
      if env.makedirsOk then .ok (true, { w with dirs := w.dirs ++ [output_path] })
      else .error (w, .errorResp 400 ("Cannot create output directory: " ++ env.makedirsErr))
    | .file => .error (w, .errorResp 400 "Output path must be a directory")
    | .dir => .ok (true, w)
  else .ok (false, w)

/-- `secure_filename` post-processing (lines 647-651): if werkzeug
stripped everything, fall back to `'temp_video.mp4'`. -/
def safe_name (env : Env) (filename : String) : String :=
  let s := env.secure filename
  if s = "" ∨ s = ".mp4" then "temp_video.mp4" else s

/-- The request data `/split` consumes. -/
structure Request where
  has_video : Bool
  filename : String
  timestamps : String
  outputPath : String

/-- `split_video()` (the `/split` handler, lines 599-750): upload and
extension gates, timestamp presence gate, output-path validation,
timestamp parsing, staging of the upload into a fresh scratch
directory, the per-range cutting loop, and the success/error responses.
On a loop failure the scratch directory is removed and the exception
text is surfaced as a 500; on success with an output directory the
scratch directory is removed and the descriptors are returned without
ids. (`os.path.expanduser` is modelled as the identity — no `~` paths
appear in the claims.) -/
def split_video (env : Env) (req : Request) (w : World) : World × Response :=
  if req.has_video = false then (w, .errorResp 400 "No video file provided")
  else if req.filename = "" then (w, .errorResp 400 "No file selected")
  else if allowed_file req.filename = false then
    (w, .errorResp 400 ("Invalid file type. Allowed types: " ++
      String.intercalate ", " ALLOWED_EXTENSIONS))
  else if req.timestamps = "" then (w, .errorResp 400 "No timestamps provided")
  else
    let output_path := pyStrip req.outputPath
    match resolve_output env w output_path with
    | .error er => er
    | .ok (sp, w1) =>
      match parse_timestamp_ranges req.timestamps with
      | .error msg => (w1, .errorResp 400 msg)
      | .ok ranges =>
        let td := env.temp_dir
        let ip := td ++ "/" ++ safe_name env req.filename
        let w3 : World := { w1 with dirs := w1.dirs ++ [td],
                                    files := w1.files ++ [(ip, env.upload)] }
        let fw := get_first_word req.filename
        match runRanges env sp output_path td ip fw ranges 1 w3 [] with
        | (w4, .error msg) => (rmtreeW w4 td, .errorResp 500 msg)
        | (w4, .ok clips) =>
          if sp then (rmtreeW w4 td, .okSaved clips output_path)
          else (w4, .okClips clips)

/-! ## `download_clip` and `cleanup_temp_files` (lines 752-776) -/

/-- Result of the `/download/<clip_id>` route: a 404 for an unknown id,
else `send_file` of the stored path with the stored display name. -/
inductive DlResult where
  | notFound
  | sendFile (bytes : Option String) (download_name mimetype : String)
deriving Repr, DecidableEq

/-- `download_clip(clip_id)`: a read-only lookup in `temp_clips`. -/
def download_clip (w : World) (clip_id : String) : World × DlResult :=
  match lookupC w.temp_clips clip_id with
  | none => (w, .notFound)
  | some ci => (w, .sendFile (lookupF w.files ci.path) ci.filename "video/mp4")

/-- Loop body of `cleanup_temp_files`: per registered clip, remove its
scratch directory if it still exists, then delete the registry entry. -/
def cleanupAux : List (String × ClipInfo) → World → World
  | [], w => w
  | (cid, ci) :: rest, w =>
    let w' := if ci.temp_dir ∈ w.dirs then rmtreeW w ci.temp_dir else w
    cleanupAux rest { w' with temp_clips := w'.temp_clips.filter (fun e => e.1 ≠ cid) }

/-- `cleanup_temp_files()` (registered via `atexit`): best-effort sweep
over a snapshot of `temp_clips.items()`. -/
def cleanup_temp_files (w : World) : World :=
  cleanupAux w.temp_clips w

/-! ## Helper notions used by the theorems -/

/-- All ranges of the list, numbered from `i`, succeed on their
stream-copy invocation. -/
def allCopyOk (env : Env) (sp : Bool) (op td ip fw : String) :
    List TimeRange → Nat → Bool
  | [], _ => true
  | r :: rest, i =>
    ((env.cutter (copyCmdOf env sp op td ip fw i r)).1 == 0) &&
      allCopyOk env sp op td ip fw rest (i + 1)

/-- The ffmpeg invocations recorded for a run of copy-successful ranges
numbered from `i`. -/
def prefixCopyCmds (env : Env) (sp : Bool) (op td ip fw : String) :
    List TimeRange → Nat → List (List String)
  | [], _ => []
  | r :: rest, i =>
    copyCmdOf env sp op td ip fw i r :: prefixCopyCmds env sp op td ip fw rest (i + 1)

/-- Iterated `stepCopyOk` over a run of copy-successful ranges. -/
def advanceCopy (env : Env) (sp : Bool) (op td ip fw : String) :
    List TimeRange → Nat → World → World
  | [], _, w => w
  | r :: rest, i, w =>
    advanceCopy env sp op td ip fw rest (i + 1) (stepCopyOk env sp op td ip fw i r w)

/-- Descriptors produced by a run of copy-successful ranges. -/
def descsCopy (env : Env) (sp : Bool) (fw : String) :
    List TimeRange → Nat → List ClipDescriptor
  | [], _ => []
  | r :: rest, i => descOf env sp fw i r :: descsCopy env sp fw rest (i + 1)

/-- The `temp_clips` entries a download-destined job registers for a run
of successful ranges numbered from `i`. -/
def scratchEntries (env : Env) (td fw : String) : List TimeRange → Nat → List (String × ClipInfo)
  | [], _ => []
  | r :: rest, i =>
    (clipId env i,
      ⟨td ++ "/" ++ output_filename fw i r.start_str r.stop_str,
       output_filename fw i r.start_str r.stop_str, td⟩)
      :: scratchEntries env td fw rest (i + 1)

/-! ## Concrete fixtures used by the witnesses and counterexamples -/

/-- The empty starting world (fresh process, nothing on disk). -/
def wEmpty : World := ⟨[], [], [], []⟩

/-- An environment in which every cutter invocation succeeds. -/
def envOk : Env :=
  { ffmpeg_cmd := "ffmpeg", cutter := fun _ => (0, ""), clipBytes := fun _ => "bytes",
    upload := "vid", temp_dir := "/scratch/job1", mint := fun i => toString i,
    secure := fun s => s, pathState := fun _ => .dir, makedirsOk := true, makedirsErr := "" }

/-- An environment in which any invocation seeking to offset 180 fails
(both strategies) and every other invocation succeeds. -/
def envFail2 : Env :=
  { envOk with cutter := fun c => if c.contains "180" then (1, "bad2") else (0, "") }

/-- An environment in which the requested output path does not exist yet
and `os.makedirs` succeeds. -/
def envMissingDir : Env := { envOk with pathState := fun _ => .missing }

/-- A request with an explicit output directory. -/
def reqSaved : Request := ⟨true, "My Clip.mp4", "1:00-2:00", "/out"⟩

/-- A download-destined request (no output directory) with two ranges. -/
def reqScratch2 : Request := ⟨true, "My Clip.mp4", "1:00-2:00, 3:00-4:00", ""⟩

/-- A request with malformed timestamp text and a requested (missing)
output directory. -/
def reqBadTs : Request := ⟨true, "a.mp4", "bad", "/clips"⟩

/-- A world holding one registered downloadable clip. -/
def wClip : World :=
  ⟨[("id1", ⟨"/t/x.mp4", "x.mp4", "/t"⟩)], ["/t"], [("/t/x.mp4", "BYTES")], []⟩

/-- The output-directory argument `split_video` passes to the cutting
loop. -/
def jobOp (req : Request) : String := pyStrip req.outputPath

/-- The staged-input path of a job. -/
def jobIp (env : Env) (req : Request) : String :=
  env.temp_dir ++ "/" ++ safe_name env req.filename

/-- The base token used in the job's clip names. -/
def jobFw (req : Request) : String := get_first_word req.filename

/-- The world after `split_video` has staged the upload into the fresh
scratch directory. -/
def stagedW (env : Env) (req : Request) (w1 : World) : World :=
  { w1 with dirs := w1.dirs ++ [env.temp_dir],
            files := w1.files ++ [(jobIp env req, env.upload)] }

/-! ## Lemmas about the string helpers -/

lemma splitCharAux_ne_nil (sep : Char) : ∀ (cs acc : List Char), splitCharAux sep cs acc ≠ []
  | [], acc => by simp [splitCharAux]
  | c :: cs, acc => by
    unfold splitCharAux
    by_cases h : c = sep
    · simp [h]
    · simpa [h] using splitCharAux_ne_nil sep cs (c :: acc)

lemma splitCharAux_headD (sep : Char) :
    ∀ (cs acc : List Char),
      (splitCharAux sep cs acc).headD [] = acc.reverse ++ cs.takeWhile (fun c => c ≠ sep)
  | [], acc => by simp [splitCharAux]
  | c :: cs, acc => by
    unfold splitCharAux
    by_cases h : c = sep
    · simp [h]
    · simpa [h] using splitCharAux_headD sep cs (c :: acc)

lemma splitChar_headD (s : String) (sep : Char) :
    (splitChar s sep).headD "" = beforeFirst s sep := by
  unfold splitChar beforeFirst
  rcases hsa : splitCharAux sep s.data [] with _ | ⟨h0, t0⟩
  · exact absurd hsa (splitCharAux_ne_nil sep s.data [])
  · have := splitCharAux_headD sep s.data []
    rw [hsa] at this
    simp at this
    simp [this]

/-! ## C2: output filename format -/

/-- C2: for every base token, 1-based sequence number and pair of range
labels, the produced clip display name is exactly
`"{baseToken}-{i}-[{startLabel with ':' replaced by '_'} - {endLabel with ':' replaced by '_'}].mp4"`,
with literal brackets, a single space on each side of the inner hyphen,
and the colon substitution confined to the label portions (a colon in
the base token is untouched); in particular token `"Show"`, `i = 2`,
labels `"1:00"`/`"2:30"` give exactly `"Show-2-[1_00 - 2_30].mp4"`. -/
theorem output_filename_c2 :
    output_filename "Show" 2 "1:00" "2:30" = "Show-2-[1_00 - 2_30].mp4" ∧
    output_filename "a:b" 1 "0:01" "0:02" = "a:b-1-[0_01 - 0_02].mp4" ∧
    ∀ fw i s e, output_filename fw i s e =
      fw ++ "-" ++ toString i ++ "-[" ++ replaceChar s ':' '_' ++ " - " ++
        replaceChar e ':' '_' ++ "].mp4" :=
  ⟨by rfl, by rfl, fun _ _ _ _ => rfl⟩

/-! ## C3: first-word derivation -/

/-- C3 counterexample: `get_first_word "_.mp4"` is the empty string, not
the fallback token `"clip"`, so the result is not always non-empty. -/
theorem get_first_word_c3_cx :
    get_first_word "_.mp4" = "" ∧ get_first_word "_.mp4" ≠ "clip" := by
  constructor
  · rfl
  · decide

/-- C3 (amended): `get_first_word` is total and returns the substring of
the extension-stripped name before the first space when a space occurs,
else before the first occurrence of the first delimiter present in the
priority order `'_'`, `'-'`, `'.'`, else the whole stripped name; the
literal fallback `"clip"` is returned only when the extension-stripped
name is entirely empty — a name that starts with its applicable
delimiter (such as `"_.mp4"`) yields the empty string, not `"clip"`. -/
theorem get_first_word_c3 :
    (∀ f, get_first_word f =
      (if hasChar (splitext f).1 ' ' then beforeFirst (splitext f).1 ' '
       else if hasChar (splitext f).1 '_' then beforeFirst (splitext f).1 '_'
       else if hasChar (splitext f).1 '-' then beforeFirst (splitext f).1 '-'
       else if hasChar (splitext f).1 '.' then beforeFirst (splitext f).1 '.'
       else if (splitext f).1 ≠ "" then (splitext f).1
       else "clip")) ∧
    get_first_word "My Clip.mp4" = "My" ∧
    get_first_word "my_clip.mp4" = "my" ∧
    get_first_word "clip.mp4" = "clip" ∧
    get_first_word "_.mp4" = "" ∧
    get_first_word "" = "clip" := by
  refine ⟨fun f => ?_, by rfl, by rfl, by rfl, by rfl, by rfl⟩
  unfold get_first_word
  simp only [splitChar_headD]

/-! ## C4: clock-string parsing -/

/-- C4: for every clock string whose colon-separated tokens parse as
integers, two tokens `m:s` give `m*60 + s` and three tokens `h:m:s`
give `h*3600 + m*60 + s`; any other token count fails with the
`Invalid timestamp format` `ValueError`, and any non-numeric token
makes the parse fail rather than return a value. -/
theorem parse_timestamp_c4 :
    (∀ t a b x y, splitChar (pyStrip t) ':' = [a, b] →
      pyInt? a = some x → pyInt? b = some y →
      parse_timestamp t = .ok (x * 60 + y)) ∧
    (∀ t a b c x y z, splitChar (pyStrip t) ':' = [a, b, c] →
      pyInt? a = some x → pyInt? b = some y → pyInt? c = some z →
      parse_timestamp t = .ok (x * 3600 + y * 60 + z)) ∧
    (∀ t, (splitChar (pyStrip t) ':').length ≠ 2 →
      (splitChar (pyStrip t) ':').length ≠ 3 →
      parse_timestamp t = .error ("Invalid timestamp format: " ++ t)) ∧
    (∀ t, (∃ tok ∈ splitChar (pyStrip t) ':', pyInt? tok = none) →
      ∃ m, parse_timestamp t = .error m) := by
  refine ⟨?_, ?_, ?_, ?_⟩
  · intro t a b x y h ha hb
    unfold parse_timestamp
    rw [h]
    simp [pyIntE, ha, hb]
  · intro t a b c x y z h ha hb hc
    unfold parse_timestamp
    rw [h]
    simp [pyIntE, ha, hb, hc]
  · intro t h2 h3
    unfold parse_timestamp
    rcases hl : splitChar (pyStrip t) ':' with _ | ⟨a, _ | ⟨b, _ | ⟨c, _ | ⟨d, tl⟩⟩⟩⟩
    · rfl
    · rfl
    · rw [hl] at h2; simp at h2
    · rw [hl] at h3; simp at h3
    · rfl
  · intro t ⟨tok, htok, hnone⟩
    unfold parse_timestamp
    rcases hl : splitChar (pyStrip t) ':' with _ | ⟨a, _ | ⟨b, _ | ⟨c, _ | ⟨d, tl⟩⟩⟩⟩
    · exact ⟨_, rfl⟩
    · exact ⟨_, rfl⟩
    · rw [hl] at htok
      rcases hpa : pyInt? a with _ | va
      · simp [pyIntE, hpa]
      · rcases hpb : pyInt? b with _ | vb
        · simp [pyIntE, hpa, hpb]
        · simp at htok
          rcases htok with rfl | rfl
          · rw [hpa] at hnone; exact absurd hnone (by simp)
          · rw [hpb] at hnone; exact absurd hnone (by simp)
    · rw [hl] at htok
      rcases hpa : pyInt? a with _ | va
      · simp [pyIntE, hpa]
      · rcases hpb : pyInt? b with _ | vb
        · simp [pyIntE, hpa, hpb]
        · rcases hpc : pyInt? c with _ | vc
          · simp [pyIntE, hpa, hpb, hpc]
          · simp at htok
            rcases htok with rfl | rfl | rfl
            · rw [hpa] at hnone; exact absurd hnone (by simp)
            · rw [hpb] at hnone; exact absurd hnone (by simp)
            · rw [hpc] at hnone; exact absurd hnone (by simp)
    · exact ⟨_, rfl⟩

/-- C4 witness: `"1:05"` parses to `65` and `"1:02:03"` parses to
`3723`; `"1:2:3:4"` has four tokens and fails with the format error;
`"a:5"` has a non-numeric token and fails. -/
theorem parse_timestamp_c4_witness :
    parse_timestamp "1:05" = .ok 65 ∧
    parse_timestamp "1:02:03" = .ok 3723 ∧
    parse_timestamp "1:2:3:4" = .error ("Invalid timestamp format: " ++ "1:2:3:4") ∧
    ∃ m, parse_timestamp "a:5" = .error m := by
  refine ⟨?_, ?_, ?_, ?_⟩
  · exact parse_timestamp_c4.1 "1:05" "1" "05" 1 5 (by rfl) (by rfl) (by rfl)
  · exact parse_timestamp_c4.2.1 "1:02:03" "1" "02" "03" 1 2 3 (by rfl) (by rfl) (by rfl) (by rfl)
  · exact parse_timestamp_c4.2.2.1 "1:2:3:4" (by decide) (by decide)
  · exact parse_timestamp_c4.2.2.2 "a:5" ⟨"a", by decide, by rfl⟩

/-! ## C5: reversed or equal bounds are rejected -/

lemma parseSeg_ok_lt (t : String) (r : TimeRange) (h : parseSeg t = .ok r) :
    r.start < r.stop := by
  unfold parseSeg at h
  split at h
  · split at h
    · exact absurd h (by simp)
    · split at h
      · exact absurd h (by simp)
      · split at h
        · exact absurd h (by simp)
        · simp at h
          subst h
          simp
          omega
  · exact absurd h (by simp)

lemma parseSegs_ok_lt :
    ∀ l rs, parseSegs l = .ok rs → ∀ r ∈ rs, r.start < r.stop := by
  intro l
  induction l with
  | nil =>
    intro rs h r hr
    simp [parseSegs] at h
    subst h
    simp at hr
  | cons t rest ih =>
    intro rs h r hr
    unfold parseSegs at h
    rcases hseg : parseSeg t with e | r0
    · rw [hseg] at h
      simp at h
    · rw [hseg] at h
      rcases hrest : parseSegs rest with e | rs'
      · rw [hrest] at h
        simp at h
      · rw [hrest] at h
        simp at h
        rw [← h] at hr
        clear h
        rw [List.mem_cons] at hr
        rcases hr with rfl | hr
        · exact parseSeg_ok_lt t _ hseg
        · exact ih rs' hrest r hr

lemma parseRangesAux_eq_parseSegs :
    ∀ l, parseRangesAux l = parseSegs ((l.map pyStrip).filter (fun t => t ≠ "")) := by
  intro l
  induction l with
  | nil => rfl
  | cons s rest ih =>
    by_cases hb : pyStrip s = ""
    · unfold parseRangesAux
      rw [if_pos hb, ih]
      simp [hb]
    · unfold parseRangesAux
      rw [if_neg hb]
      have hfil : ((s :: rest).map pyStrip).filter (fun t => t ≠ "") =
          pyStrip s :: ((rest.map pyStrip).filter (fun t => t ≠ "")) := by
        simp [hb]
      rw [hfil]
      unfold parseSegs parseSeg
      rw [← ih]
      rcases hsp : splitChar (pyStrip s) '-' with _ | ⟨p1, _ | ⟨p2, _ | ⟨p3, tl⟩⟩⟩ <;>
        simp [hsp]
      rcases hpa : parse_timestamp (pyStrip p1) with e | a <;> simp [hpa]
      rcases hpb : parse_timestamp (pyStrip p2) with e | b <;> simp [hpb]
      by_cases hle : b ≤ a
      · simp [hle]
      · simp only [if_neg hle]

/-- C5: a range chunk `"a-b"` whose endpoints both parse with the start
value ≥ the end value makes parsing fail with the validation error
naming the offending (stripped) range text — bounds are never silently
swapped — and every `TimeRange` that parsing returns satisfies
`stop > start` strictly. -/
theorem parse_ranges_c5 :
    (∀ s rest p1 p2 a b, pyStrip s ≠ "" →
      splitChar (pyStrip s) '-' = [p1, p2] →
      parse_timestamp (pyStrip p1) = .ok a →
      parse_timestamp (pyStrip p2) = .ok b →
      a ≥ b →
      parseRangesAux (s :: rest) =
        .error ("Invalid range: start time must be before end time in " ++ pyStrip s)) ∧
    (∀ text rs, parse_timestamp_ranges text = .ok rs → ∀ r ∈ rs, r.start < r.stop) := by
  constructor
  · intro s rest p1 p2 a b hb hsp hpa hpb hge
    unfold parseRangesAux
    rw [if_neg hb, hsp]
    simp [hpa, hpb, hge]
  · intro text rs h
    rw [parse_timestamp_ranges, parseRangesAux_eq_parseSegs] at h
    exact parseSegs_ok_lt _ rs h

/-- C5 witness: `"2:00 - 1:00"` (reversed bounds) fails with the
validation error naming the range text, and the range parsed from
`"2:00-4:00"` satisfies `start < stop`. -/
theorem parse_ranges_c5_witness :
    parseRangesAux ["2:00 - 1:00"] =
      .error ("Invalid range: start time must be before end time in " ++ pyStrip "2:00 - 1:00") ∧
    (120 : Int) < 240 := by
  constructor
  · exact parse_ranges_c5.1 "2:00 - 1:00" [] "2:00 " " 1:00" 120 60
      (by decide) (by rfl) (by rfl) (by rfl) (by decide)
  · have := parse_ranges_c5.2 "2:00-4:00" [⟨120, 240, "2:00", "4:00"⟩] (by rfl)
      ⟨120, 240, "2:00", "4:00"⟩ (by simp)
    exact this

/-! ## C6: comma splitting, blank skipping, order preservation -/

/-- C6: parsing splits on `','` and silently skips blank chunks (so the
blank-only input `",,"` yields the empty range list, not an error), the
output order equals the chunks' order of appearance — parsing equals the
in-order sequencing of the single-chunk parse over the stripped
non-blank chunks — and
`parse("1:34:30 - 1:40:43, 40:43 - 45:00")` yields exactly
`(5670, 6043)` then `(2443, 2700)`. -/
theorem parse_ranges_c6 :
    parse_timestamp_ranges ",," = .ok [] ∧
    parse_timestamp_ranges "1:34:30 - 1:40:43, 40:43 - 45:00" =
      .ok [⟨5670, 6043, "1:34:30", "1:40:43"⟩, ⟨2443, 2700, "40:43", "45:00"⟩] ∧
    ∀ text, parse_timestamp_ranges text =
      parseSegs (((splitChar text ',').map pyStrip).filter (fun t => t ≠ "")) := by
  refine ⟨by rfl, by rfl, fun text => ?_⟩
  exact parseRangesAux_eq_parseSegs (splitChar text ',')

/-! ## Lemmas about the world model -/

lemma resolve_output_ok (env : Env) (w : World) (p : String) (sp : Bool) (w1 : World)
    (h : resolve_output env w p = .ok (sp, w1)) :
    w1 = w ∨ w1 = { w with dirs := w.dirs ++ [p] } := by
  unfold resolve_output at h
  split at h
  · split at h
    · split at h
      · simp at h
        right
        exact h.2.symm
      · exact absurd h (by simp)
    · exact absurd h (by simp)
    · simp at h
      left
      exact h.2.symm
  · simp at h
    left
    exact h.2.symm

lemma resolve_output_error (env : Env) (w : World) (p : String) (er : World × Response)
    (h : resolve_output env w p = .error er) :
    er.1 = w ∧ ∃ m, er.2 = .errorResp 400 m := by
  unfold resolve_output at h
  split at h
  · split at h
    · split at h
      · exact absurd h (by simp)
      · simp at h
        subst h
        exact ⟨rfl, _, rfl⟩
    · simp at h
      subst h
      exact ⟨rfl, _, rfl⟩
    · exact absurd h (by simp)
  · exact absurd h (by simp)

lemma rmtreeW_temp_clips (w : World) (d : String) :
    (rmtreeW w d).temp_clips = w.temp_clips := rfl

lemma rmtreeW_procs (w : World) (d : String) : (rmtreeW w d).procs = w.procs := rfl

lemma not_mem_rmtreeW_dirs (w : World) (d : String) : d ∉ (rmtreeW w d).dirs := by
  intro h
  have := (List.mem_filter.mp h).2
  simp at this

lemma stepCopyOk_procs (env : Env) (sp : Bool) (op td ip fw : String) (i : Nat)
    (r : TimeRange) (w : World) :
    (stepCopyOk env sp op td ip fw i r w).procs =
      w.procs ++ [copyCmdOf env sp op td ip fw i r] := by
  cases sp <;> simp [stepCopyOk]

lemma stepCopyOk_dirs (env : Env) (sp : Bool) (op td ip fw : String) (i : Nat)
    (r : TimeRange) (w : World) :
    (stepCopyOk env sp op td ip fw i r w).dirs = w.dirs := by
  cases sp <;> simp [stepCopyOk]

lemma stepCopyOk_temp_clips_true (env : Env) (op td ip fw : String) (i : Nat)
    (r : TimeRange) (w : World) :
    (stepCopyOk env true op td ip fw i r w).temp_clips = w.temp_clips := by
  simp [stepCopyOk]

lemma stepCopyOk_temp_clips_false (env : Env) (op td ip fw : String) (i : Nat)
    (r : TimeRange) (w : World) :
    (stepCopyOk env false op td ip fw i r w).temp_clips =
      dictInsert w.temp_clips (clipId env i)
        ⟨td ++ "/" ++ output_filename fw i r.start_str r.stop_str,
         output_filename fw i r.start_str r.stop_str, td⟩ := by
  simp [stepCopyOk, clipDest]

lemma stepRetryOk_temp_clips_true (env : Env) (op td ip fw : String) (i : Nat)
    (r : TimeRange) (w : World) :
    (stepRetryOk env true op td ip fw i r w).temp_clips = w.temp_clips := by
  simp [stepRetryOk]

lemma runRanges_cons_fail (env : Env) (sp : Bool) (op td ip fw : String)
    (r : TimeRange) (rest : List TimeRange) (i : Nat) (w : World) (acc : List ClipDescriptor)
    (h1 : (env.cutter (copyCmdOf env sp op td ip fw i r)).1 ≠ 0)
    (h2 : (env.cutter (reencodeCmdOf env sp op td ip fw i r)).1 ≠ 0) :
    runRanges env sp op td ip fw (r :: rest) i w acc =
      ({ w with procs := w.procs ++ [copyCmdOf env sp op td ip fw i r,
                                     reencodeCmdOf env sp op td ip fw i r] },
       .error ("FFmpeg failed: " ++ (env.cutter (reencodeCmdOf env sp op td ip fw i r)).2)) := by
  unfold runRanges
  rw [if_pos h1, if_pos h2]

lemma runRanges_cons_copyOk (env : Env) (sp : Bool) (op td ip fw : String)
    (r : TimeRange) (rest : List TimeRange) (i : Nat) (w : World) (acc : List ClipDescriptor)
    (h1 : (env.cutter (copyCmdOf env sp op td ip fw i r)).1 = 0) :
    runRanges env sp op td ip fw (r :: rest) i w acc =
      runRanges env sp op td ip fw rest (i + 1) (stepCopyOk env sp op td ip fw i r w)
        (acc ++ [descOf env sp fw i r]) := by
  conv_lhs => unfold runRanges
  rw [if_neg (by simp [h1])]

lemma runRanges_cons_retryOk (env : Env) (sp : Bool) (op td ip fw : String)
    (r : TimeRange) (rest : List TimeRange) (i : Nat) (w : World) (acc : List ClipDescriptor)
    (h1 : (env.cutter (copyCmdOf env sp op td ip fw i r)).1 ≠ 0)
    (h2 : (env.cutter (reencodeCmdOf env sp op td ip fw i r)).1 = 0) :
    runRanges env sp op td ip fw (r :: rest) i w acc =
      runRanges env sp op td ip fw rest (i + 1) (stepRetryOk env sp op td ip fw i r w)
        (acc ++ [descOf env sp fw i r]) := by
  conv_lhs => unfold runRanges
  rw [if_pos h1, if_neg (by simp [h2])]

lemma runRanges_copyRun (env : Env) (sp : Bool) (op td ip fw : String) :
    ∀ (done rest : List TimeRange) (i : Nat) (w : World) (acc : List ClipDescriptor),
      allCopyOk env sp op td ip fw done i = true →
      runRanges env sp op td ip fw (done ++ rest) i w acc =
        runRanges env sp op td ip fw rest (i + done.length)
          (advanceCopy env sp op td ip fw done i w) (acc ++ descsCopy env sp fw done i) := by
  intro done
  induction done with
  | nil =>
    intro rest i w acc _
    simp [advanceCopy, descsCopy]
  | cons r done' ih =>
    intro rest i w acc hall
    rw [allCopyOk] at hall
    rw [Bool.and_eq_true, beq_iff_eq] at hall
    obtain ⟨h1, h2⟩ := hall
    rw [List.cons_append, runRanges_cons_copyOk env sp op td ip fw r (done' ++ rest) i w acc h1,
      ih rest (i + 1) _ _ h2]
    have harith : i + 1 + done'.length = i + (r :: done').length := by
      simp [List.length_cons]
      omega
    rw [harith]
    have hadv : advanceCopy env sp op td ip fw done' (i + 1) (stepCopyOk env sp op td ip fw i r w) =
        advanceCopy env sp op td ip fw (r :: done') i w := rfl
    rw [hadv]
    have hdesc : (acc ++ [descOf env sp fw i r]) ++ descsCopy env sp fw done' (i + 1) =
        acc ++ descsCopy env sp fw (r :: done') i := by
      rw [descsCopy, List.append_assoc]
      rfl
    rw [hdesc]

lemma advanceCopy_procs (env : Env) (sp : Bool) (op td ip fw : String) :
    ∀ (done : List TimeRange) (i : Nat) (w : World),
      (advanceCopy env sp op td ip fw done i w).procs =
        w.procs ++ prefixCopyCmds env sp op td ip fw done i := by
  intro done
  induction done with
  | nil =>
    intro i w
    simp [advanceCopy, prefixCopyCmds]
  | cons r done' ih =>
    intro i w
    rw [advanceCopy, ih, prefixCopyCmds, stepCopyOk_procs]
    simp

lemma advanceCopy_dirs (env : Env) (sp : Bool) (op td ip fw : String) :
    ∀ (done : List TimeRange) (i : Nat) (w : World),
      (advanceCopy env sp op td ip fw done i w).dirs = w.dirs := by
  intro done
  induction done with
  | nil => intro i w; simp [advanceCopy]
  | cons r done' ih =>
    intro i w
    rw [advanceCopy, ih, stepCopyOk_dirs]

lemma dictInsert_of_fresh (m : List (String × ClipInfo)) (k : String) (v : ClipInfo)
    (h : lookupC m k = none) : dictInsert m k v = m ++ [(k, v)] := by
  unfold dictInsert
  rw [h]

lemma lookupC_append_single (m : List (String × ClipInfo)) (k0 : String) (v : ClipInfo)
    (k : String) (hne : k0 ≠ k) (h : lookupC m k = none) :
    lookupC (m ++ [(k0, v)]) k = none := by
  induction m with
  | nil => simp [lookupC, hne]
  | cons e rest ih =>
    simp only [List.cons_append, lookupC] at h ⊢
    by_cases he : e.1 = k
    · rw [if_pos he] at h
      exact absurd h (by simp)
    · rw [if_neg he] at h ⊢
      exact ih h

lemma advanceCopy_temp_clips_false (env : Env) (op td ip fw : String) :
    ∀ (done : List TimeRange) (i : Nat) (w : World),
      (∀ k, k < done.length → lookupC w.temp_clips (clipId env (i + k)) = none) →
      (∀ k l, k < done.length → l < done.length →
        clipId env (i + k) = clipId env (i + l) → k = l) →
      (advanceCopy env false op td ip fw done i w).temp_clips
        = w.temp_clips ++ scratchEntries env td fw done i := by
  intro done
  induction done with
  | nil =>
    intro i w _ _
    simp [advanceCopy, scratchEntries]
  | cons r done' ih =>
    intro i w hfresh hinj
    rw [advanceCopy]
    have hfresh0 : lookupC w.temp_clips (clipId env i) = none := by
      have := hfresh 0 (by simp)
      simpa using this
    have hstep : (stepCopyOk env false op td ip fw i r w).temp_clips
        = w.temp_clips ++ [(clipId env i,
            ⟨td ++ "/" ++ output_filename fw i r.start_str r.stop_str,
             output_filename fw i r.start_str r.stop_str, td⟩)] := by
      rw [stepCopyOk_temp_clips_false, dictInsert_of_fresh _ _ _ hfresh0]
    rw [ih (i + 1) (stepCopyOk env false op td ip fw i r w) ?fresh ?inj]
    · rw [hstep, scratchEntries, List.append_assoc]
      rfl
    case fresh =>
      intro k hk
      rw [hstep]
      have harith : i + 1 + k = i + (k + 1) := by omega
      apply lookupC_append_single
      · intro heq
        have := hinj 0 (k + 1) (by simp) (by simpa using Nat.succ_lt_succ hk)
        rw [Nat.add_zero] at this
        rw [harith] at heq
        exact Nat.succ_ne_zero k (this heq).symm
      · rw [harith]
        exact hfresh (k + 1) (by simpa using Nat.succ_lt_succ hk)
    case inj =>
      intro k l hk hl heq
      have harith1 : i + 1 + k = i + (k + 1) := by omega
      have harith2 : i + 1 + l = i + (l + 1) := by omega
      rw [harith1, harith2] at heq
      have := hinj (k + 1) (l + 1) (by simpa using Nat.succ_lt_succ hk)
        (by simpa using Nat.succ_lt_succ hl) heq
      omega

lemma scratchEntries_temp_dir (env : Env) (td fw : String) :
    ∀ (done : List TimeRange) (i : Nat),
      ∀ e ∈ scratchEntries env td fw done i, e.2.temp_dir = td := by
  intro done
  induction done with
  | nil => intro i e he; simp [scratchEntries] at he
  | cons r done' ih =>
    intro i e he
    rw [scratchEntries, List.mem_cons] at he
    rcases he with rfl | he
    · rfl
    · exact ih (i + 1) e he

lemma runRanges_temp_clips_true (env : Env) (op td ip fw : String) :
    ∀ (l : List TimeRange) (i : Nat) (w : World) (acc : List ClipDescriptor),
      ((runRanges env true op td ip fw l i w acc).1).temp_clips = w.temp_clips := by
  intro l
  induction l with
  | nil => intro i w acc; rfl
  | cons r rest ih =>
    intro i w acc
    unfold runRanges
    split
    · split
      · rfl
      · rw [ih]
        exact stepRetryOk_temp_clips_true env op td ip fw i r w
    · rw [ih]
      exact stepCopyOk_temp_clips_true env op td ip fw i r w

lemma runRanges_ok_ids_true (env : Env) (op td ip fw : String) :
    ∀ (l : List TimeRange) (i : Nat) (w : World) (acc : List ClipDescriptor)
      (clips : List ClipDescriptor),
      (runRanges env true op td ip fw l i w acc).2 = .ok clips →
      (∀ c ∈ acc, c.id = none) → ∀ c ∈ clips, c.id = none := by
  intro l
  induction l with
  | nil =>
    intro i w acc clips h hacc
    simp [runRanges] at h
    rw [← h]
    exact hacc
  | cons r rest ih =>
    intro i w acc clips h hacc
    unfold runRanges at h
    split at h
    · split at h
      · exact absurd h (by simp)
      · refine ih (i + 1) _ _ clips h ?_
        intro c hc
        rcases List.mem_append.mp hc with hc | hc
        · exact hacc c hc
        · simp [descOf] at hc
          simp [hc]
    · refine ih (i + 1) _ _ clips h ?_
      intro c hc
      rcases List.mem_append.mp hc with hc | hc
      · exact hacc c hc
      · simp [descOf] at hc
        simp [hc]

lemma runRanges_procs_mono (env : Env) (sp : Bool) (op td ip fw : String) :
    ∀ (l : List TimeRange) (i : Nat) (w : World) (acc : List ClipDescriptor),
      ∃ t, ((runRanges env sp op td ip fw l i w acc).1).procs = w.procs ++ t := by
  intro l
  induction l with
  | nil => intro i w acc; exact ⟨[], by simp [runRanges]⟩
  | cons r rest ih =>
    intro i w acc
    unfold runRanges
    split
    · split
      · exact ⟨[copyCmdOf env sp op td ip fw i r, reencodeCmdOf env sp op td ip fw i r], rfl⟩
      · obtain ⟨t, ht⟩ := ih (i + 1) (stepRetryOk env sp op td ip fw i r w)
          (acc ++ [descOf env sp fw i r])
        refine ⟨[copyCmdOf env sp op td ip fw i r, reencodeCmdOf env sp op td ip fw i r] ++ t, ?_⟩
        rw [ht]
        have : (stepRetryOk env sp op td ip fw i r w).procs =
            w.procs ++ [copyCmdOf env sp op td ip fw i r, reencodeCmdOf env sp op td ip fw i r] := by
          cases sp <;> simp [stepRetryOk]
        rw [this, List.append_assoc]
    · obtain ⟨t, ht⟩ := ih (i + 1) (stepCopyOk env sp op td ip fw i r w)
        (acc ++ [descOf env sp fw i r])
      refine ⟨[copyCmdOf env sp op td ip fw i r] ++ t, ?_⟩
      rw [ht, stepCopyOk_procs, List.append_assoc]

lemma cleanupAux_temp_clips :
    ∀ (l : List (String × ClipInfo)) (w : World),
      (cleanupAux l w).temp_clips =
        w.temp_clips.filter (fun e => !(l.map Prod.fst).contains e.1) := by
  intro l
  induction l with
  | nil =>
    intro w
    simp [cleanupAux]
  | cons e0 rest ih =>
    intro w
    obtain ⟨cid, ci⟩ := e0
    rw [cleanupAux, ih]
    have hpres : ((if ci.temp_dir ∈ w.dirs then rmtreeW w ci.temp_dir else w)).temp_clips
        = w.temp_clips := by
      split <;> rfl
    rw [hpres, List.filter_filter]
    apply List.filter_congr
    intro e _
    by_cases hc : e.1 = cid <;> simp [hc]

lemma cleanup_temp_clips_nil (w : World) : (cleanup_temp_files w).temp_clips = [] := by
  rw [cleanup_temp_files, cleanupAux_temp_clips]
  apply List.filter_eq_nil_iff.mpr
  intro e he
  simp
  exact ⟨e.2, he⟩

/-! ## C9: download is non-destructive -/

/-- C9: for every id registered in `temp_clips`, downloading twice in a
row returns the same bytes both times (the state, hence the file read,
is unchanged) and leaves the record in place; for every id not in the
table — in particular any id after `cleanup_temp_files` has swept the
table — download returns the not-found error. -/
theorem download_clip_c9 :
    (∀ w id ci, lookupC w.temp_clips id = some ci →
      download_clip w id = (w, .sendFile (lookupF w.files ci.path) ci.filename "video/mp4") ∧
      download_clip (download_clip w id).1 id = download_clip w id ∧
      lookupC ((download_clip w id).1).temp_clips id = some ci) ∧
    (∀ w id, lookupC w.temp_clips id = none → download_clip w id = (w, .notFound)) ∧
    (∀ w id, (download_clip (cleanup_temp_files w) id).2 = .notFound) := by
  refine ⟨?_, ?_, ?_⟩
  · intro w id ci h
    have h1 : download_clip w id =
        (w, .sendFile (lookupF w.files ci.path) ci.filename "video/mp4") := by
      unfold download_clip
      rw [h]
    refine ⟨h1, by simp [h1], by simp [h1, h]⟩
  · intro w id h
    unfold download_clip
    rw [h]
  · intro w id
    unfold download_clip
    rw [cleanup_temp_clips_nil]
    simp [lookupC]

/-- C9 witness: in a world with one registered clip, downloading `"id1"`
returns the stored bytes, an unknown id returns not-found, and after the
sweep the previously valid id returns not-found. -/
theorem download_clip_c9_witness :
    download_clip wClip "id1" = (wClip, .sendFile (some "BYTES") "x.mp4" "video/mp4") ∧
    download_clip wClip "nope" = (wClip, .notFound) ∧
    (download_clip (cleanup_temp_files wClip) "id1").2 = .notFound := by
  refine ⟨?_, ?_, ?_⟩
  · exact (download_clip_c9.1 wClip "id1" ⟨"/t/x.mp4", "x.mp4", "/t"⟩ (by decide)).1
  · exact download_clip_c9.2.1 wClip "nope" (by decide)
  · exact download_clip_c9.2.2 wClip "id1"

/-! ## C8: explicit-output jobs -/

/-- C8: a job submitted with an explicit output directory that completes
successfully returns descriptors that all carry a filename but no id,
inserts nothing into the process-wide `temp_clips` table, and its
scratch directory is no longer present when the response is returned. -/
theorem split_video_c8 (env : Env) (req : Request) (w w' : World)
    (clips : List ClipDescriptor) (p : String)
    (h : split_video env req w = (w', .okSaved clips p)) :
    (∀ c ∈ clips, c.id = none) ∧ w'.temp_clips = w.temp_clips ∧
      env.temp_dir ∉ w'.dirs := by
  simp only [split_video] at h
  split at h
  · simp at h
  · split at h
    · simp at h
    · split at h
      · simp at h
      · split at h
        · simp at h
        · split at h
          · rename_i er heq
            obtain ⟨h1, m, h2⟩ := resolve_output_error env w _ er heq
            rw [h] at h2
            simp at h2
          · rename_i sp w1 heq1
            split at h
            · simp at h
            · rename_i ranges heq2
              split at h
              · simp at h
              · rename_i w4 clips' heqR
                split at h
                · rename_i hsp
                  subst hsp
                  rw [Prod.mk.injEq] at h
                  obtain ⟨hw', hresp⟩ := h
                  rw [Response.okSaved.injEq] at hresp
                  obtain ⟨hclips, hp⟩ := hresp
                  subst hw'
                  subst hclips
                  refine ⟨?_, ?_, ?_⟩
                  · refine runRanges_ok_ids_true env (pyStrip req.outputPath) env.temp_dir
                      (env.temp_dir ++ "/" ++ safe_name env req.filename)
                      (get_first_word req.filename) ranges 1
                      { w1 with dirs := w1.dirs ++ [env.temp_dir],
                                files := w1.files ++
                                  [(env.temp_dir ++ "/" ++ safe_name env req.filename, env.upload)] }
                      [] clips' ?_ (by simp)
                    rw [heqR]
                  · rw [rmtreeW_temp_clips]
                    have h4 : w4 =
                        (runRanges env true (pyStrip req.outputPath) env.temp_dir
                          (env.temp_dir ++ "/" ++ safe_name env req.filename)
                          (get_first_word req.filename) ranges 1
                          { w1 with dirs := w1.dirs ++ [env.temp_dir],
                                    files := w1.files ++
                                      [(env.temp_dir ++ "/" ++ safe_name env req.filename, env.upload)] }
                          []).1 := by
                      rw [heqR]
                    rw [h4, runRanges_temp_clips_true]
                    rcases resolve_output_ok env w _ true w1 heq1 with rfl | rfl
                    · rfl
                    · rfl
                  · exact not_mem_rmtreeW_dirs w4 env.temp_dir
                · simp at h

/-- C8 witness: the one-range job with requested output directory
`"/out"` succeeds, returns a single id-less descriptor, registers
nothing, and its scratch directory `"/scratch/job1"` is gone. -/
theorem split_video_c8_witness :
    (∀ c ∈ [({ id := none, filename := "My-1-[1_00 - 2_00].mp4" } : ClipDescriptor)],
      c.id = none) ∧
    (split_video envOk reqSaved wEmpty).1.temp_clips = wEmpty.temp_clips ∧
    envOk.temp_dir ∉ (split_video envOk reqSaved wEmpty).1.dirs :=
  split_video_c8 envOk reqSaved wEmpty (split_video envOk reqSaved wEmpty).1
    [{ id := none, filename := "My-1-[1_00 - 2_00].mp4" }] "/out" (by decide)

/-! ## C7: malformed timestamps fail before the cutter runs, but not
with zero side effects -/

/-- C7 counterexample: a request with malformed timestamp text `"bad"`
and the missing output directory `"/clips"` fails with the timestamp
validation error, yet the output directory has been created — the
claim's "no directory is created" is false because output-path
validation (including `os.makedirs`) runs before timestamp parsing. -/
theorem split_video_c7_cx :
    (split_video envMissingDir reqBadTs wEmpty).2 =
      .errorResp 400 "Invalid range format: bad" ∧
    (split_video envMissingDir reqBadTs wEmpty).1.dirs = ["/clips"] ∧
    wEmpty.dirs = [] := by
  refine ⟨by decide, by decide, rfl⟩

/-- C7 (amended): a job whose timestamp text is malformed fails with a
400 validation error before any external cutter process is invoked and
before the upload is staged — no ffmpeg invocation is recorded, no file
is written, the artifact table is unchanged and no scratch directory is
created — but, when a nonexistent output directory was requested, that
directory may already have been created before the timestamp validation
error is reported (output-path validation precedes timestamp parsing);
the job's directory state is otherwise unchanged. -/
theorem split_video_c7 (env : Env) (req : Request) (w : World) (msg0 : String)
    (hbad : parse_timestamp_ranges req.timestamps = .error msg0) :
    ∃ m, (split_video env req w).2 = .errorResp 400 m ∧
      (split_video env req w).1.procs = w.procs ∧
      (split_video env req w).1.files = w.files ∧
      (split_video env req w).1.temp_clips = w.temp_clips ∧
      ((split_video env req w).1.dirs = w.dirs ∨
        (split_video env req w).1.dirs = w.dirs ++ [pyStrip req.outputPath]) := by
  by_cases hv : req.has_video = false
  · exact ⟨"No video file provided", by simp [split_video, hv]⟩
  · by_cases hf : req.filename = ""
    · exact ⟨"No file selected", by simp [split_video, hv, hf]⟩
    · by_cases ha : allowed_file req.filename = false
      · exact ⟨"Invalid file type. Allowed types: " ++ String.intercalate ", " ALLOWED_EXTENSIONS,
          by simp [split_video, hv, hf, ha]⟩
      · by_cases ht : req.timestamps = ""
        · exact ⟨"No timestamps provided", by simp [split_video, hv, hf, ha, ht]⟩
        · rcases hro : resolve_output env w (pyStrip req.outputPath) with er | sw1
          · obtain ⟨h1, m, h2⟩ := resolve_output_error env w _ er hro
            refine ⟨m, ?_⟩
            simp only [split_video, if_neg hv, if_neg hf, if_neg ha, if_neg ht, hro]
            exact ⟨h2, by rw [h1], by rw [h1], by rw [h1], Or.inl (by rw [h1])⟩
          · obtain ⟨sp, w1⟩ := sw1
            refine ⟨msg0, ?_⟩
            simp only [split_video, if_neg hv, if_neg hf, if_neg ha, if_neg ht, hro, hbad]
            rcases resolve_output_ok env w _ sp w1 hro with rfl | rfl
            · simp
            · simp

/-- C7 witness for the amended claim: with timestamp text `"bad"` and an
already-existing output directory, the job fails with the range-format
validation error and the world is untouched. -/
theorem split_video_c7_witness :
    ∃ m, (split_video envOk reqBadTs wEmpty).2 = .errorResp 400 m ∧
      (split_video envOk reqBadTs wEmpty).1.procs = wEmpty.procs ∧
      (split_video envOk reqBadTs wEmpty).1.files = wEmpty.files ∧
      (split_video envOk reqBadTs wEmpty).1.temp_clips = wEmpty.temp_clips ∧
      ((split_video envOk reqBadTs wEmpty).1.dirs = wEmpty.dirs ∨
        (split_video envOk reqBadTs wEmpty).1.dirs = wEmpty.dirs ++ [pyStrip reqBadTs.outputPath]) :=
  split_video_c7 envOk reqBadTs wEmpty "Invalid range format: bad" (by rfl)

/-! ## Staging lemma for `split_video` -/

lemma split_video_run (env : Env) (req : Request) (w : World) (sp : Bool) (w1 : World)
    (ranges : List TimeRange)
    (hv : ¬req.has_video = false) (hf : ¬req.filename = "")
    (ha : ¬allowed_file req.filename = false) (ht : ¬req.timestamps = "")
    (hres : resolve_output env w (pyStrip req.outputPath) = .ok (sp, w1))
    (hranges : parse_timestamp_ranges req.timestamps = .ok ranges) :
    split_video env req w =
      (match runRanges env sp (jobOp req) env.temp_dir (jobIp env req) (jobFw req)
          ranges 1 (stagedW env req w1) [] with
      | (w4, .error msg) => (rmtreeW w4 env.temp_dir, .errorResp 500 msg)
      | (w4, .ok clips) =>
        if sp then (rmtreeW w4 env.temp_dir, .okSaved clips (jobOp req))
        else (w4, .okClips clips)) := by
  simp only [split_video, if_neg hv, if_neg hf, if_neg ha, if_neg ht, hres, hranges,
    jobOp, jobIp, jobFw, stagedW]

/-! ## C1: copy failure retried once with re-encode; double failure
aborts the whole job -/

/-- C1: whenever a range's stream-copy invocation exits non-zero the
runner immediately retries exactly once with the re-encode argv (the
invocation trace for that range is exactly copy-then-re-encode); and if
for some range of a job both invocations exit non-zero (the earlier
ranges having succeeded on stream copy), the whole job fails with a 500
carrying `"FFmpeg failed: "` plus the re-encode attempt's stderr, no
invocation is made for the remaining ranges, and the response carries no
clip list at all — never a partial result set. -/
theorem split_video_c1 :
    (∀ env sp op td ip fw r rest i w acc,
      (env.cutter (copyCmdOf env sp op td ip fw i r)).1 ≠ 0 →
      ∃ tail, ((runRanges env sp op td ip fw (r :: rest) i w acc).1).procs =
        w.procs ++ [copyCmdOf env sp op td ip fw i r,
                    reencodeCmdOf env sp op td ip fw i r] ++ tail) ∧
    (∀ env req w sp w1 done bad rest,
      ¬req.has_video = false → ¬req.filename = "" →
      ¬allowed_file req.filename = false → ¬req.timestamps = "" →
      resolve_output env w (pyStrip req.outputPath) = .ok (sp, w1) →
      parse_timestamp_ranges req.timestamps = .ok (done ++ bad :: rest) →
      allCopyOk env sp (jobOp req) env.temp_dir (jobIp env req) (jobFw req) done 1 = true →
      (env.cutter (copyCmdOf env sp (jobOp req) env.temp_dir (jobIp env req) (jobFw req)
        (1 + done.length) bad)).1 ≠ 0 →
      (env.cutter (reencodeCmdOf env sp (jobOp req) env.temp_dir (jobIp env req) (jobFw req)
        (1 + done.length) bad)).1 ≠ 0 →
      (split_video env req w).2 = .errorResp 500 ("FFmpeg failed: " ++
        (env.cutter (reencodeCmdOf env sp (jobOp req) env.temp_dir (jobIp env req)
          (jobFw req) (1 + done.length) bad)).2) ∧
      (split_video env req w).1.procs = w.procs ++
        (prefixCopyCmds env sp (jobOp req) env.temp_dir (jobIp env req) (jobFw req) done 1 ++
         [copyCmdOf env sp (jobOp req) env.temp_dir (jobIp env req) (jobFw req)
            (1 + done.length) bad,
          reencodeCmdOf env sp (jobOp req) env.temp_dir (jobIp env req) (jobFw req)
            (1 + done.length) bad])) := by
  constructor
  · intro env sp op td ip fw r rest i w acc h1
    by_cases h2 : (env.cutter (reencodeCmdOf env sp op td ip fw i r)).1 ≠ 0
    · refine ⟨[], ?_⟩
      rw [runRanges_cons_fail env sp op td ip fw r rest i w acc h1 h2]
      simp
    · have h2' : (env.cutter (reencodeCmdOf env sp op td ip fw i r)).1 = 0 :=
        not_ne_iff.mp h2
      rw [runRanges_cons_retryOk env sp op td ip fw r rest i w acc h1 h2']
      obtain ⟨t, ht⟩ := runRanges_procs_mono env sp op td ip fw rest (i + 1)
        (stepRetryOk env sp op td ip fw i r w) (acc ++ [descOf env sp fw i r])
      refine ⟨t, ?_⟩
      rw [ht]
      have hpr : (stepRetryOk env sp op td ip fw i r w).procs =
          w.procs ++ [copyCmdOf env sp op td ip fw i r,
                      reencodeCmdOf env sp op td ip fw i r] := by
        cases sp <;> simp [stepRetryOk]
      rw [hpr, List.append_assoc]
  · intro env req w sp w1 done bad rest hv hf ha ht hres hparse hdone h1 h2
    rw [split_video_run env req w sp w1 (done ++ bad :: rest) hv hf ha ht hres hparse]
    rw [runRanges_copyRun env sp (jobOp req) env.temp_dir (jobIp env req) (jobFw req)
      done (bad :: rest) 1 (stagedW env req w1) [] hdone]
    rw [runRanges_cons_fail env sp (jobOp req) env.temp_dir (jobIp env req) (jobFw req)
      bad rest (1 + done.length)
      (advanceCopy env sp (jobOp req) env.temp_dir (jobIp env req) (jobFw req) done 1
        (stagedW env req w1))
      ([] ++ descsCopy env sp (jobFw req) done 1) h1 h2]
    constructor
    · rfl
    · show (rmtreeW _ env.temp_dir).procs = _
      rw [rmtreeW_procs]
      show (advanceCopy env sp (jobOp req) env.temp_dir (jobIp env req) (jobFw req) done 1
          (stagedW env req w1)).procs ++ _ = _
      rw [advanceCopy_procs]
      have hstp : (stagedW env req w1).procs = w1.procs := rfl
      rw [hstp]
      have hw1p : w1.procs = w.procs := by
        rcases resolve_output_ok env w _ sp w1 hres with rfl | rfl
        · rfl
        · rfl
      rw [hw1p, List.append_assoc]

/-- C1 witness: in the two-range scratch job whose second range fails
both cutter attempts, the response is the 500 carrying the re-encode
stderr, and the failing range's trace is exactly copy-then-re-encode. -/
theorem split_video_c1_witness :
    (split_video envFail2 reqScratch2 wEmpty).2 =
      .errorResp 500 ("FFmpeg failed: " ++ "bad2") ∧
    (∃ tail, ((runRanges envFail2 false "" "/scratch/job1" "/scratch/job1/My Clip.mp4" "My"
        [⟨180, 240, "3:00", "4:00"⟩] 2 wEmpty []).1).procs =
      wEmpty.procs ++
        [copyCmdOf envFail2 false "" "/scratch/job1" "/scratch/job1/My Clip.mp4" "My" 2
          ⟨180, 240, "3:00", "4:00"⟩,
         reencodeCmdOf envFail2 false "" "/scratch/job1" "/scratch/job1/My Clip.mp4" "My" 2
          ⟨180, 240, "3:00", "4:00"⟩] ++ tail) := by
  constructor
  · exact (split_video_c1.2 envFail2 reqScratch2 wEmpty false wEmpty
      [⟨60, 120, "1:00", "2:00"⟩] ⟨180, 240, "3:00", "4:00"⟩ []
      (by decide) (by decide) (by decide) (by decide) (by rfl) (by rfl)
      (by decide) (by decide) (by decide)).1
  · exact split_video_c1.1 envFail2 false "" "/scratch/job1" "/scratch/job1/My Clip.mp4" "My"
      ⟨180, 240, "3:00", "4:00"⟩ [] 2 wEmpty [] (by decide)

/-! ## C10: failed scratch jobs leave earlier registrations behind -/

/-- C10: a download-destined job (no output directory) that fails on a
later range after its earlier ranges succeeded still has the ids minted
for those earlier ranges registered in `temp_clips` after the failure:
the error path deletes the scratch directory but does not remove the
already-inserted records, each of which names the now-deleted scratch
directory. -/
theorem split_video_c10 (env : Env) (req : Request) (w : World)
    (done : List TimeRange) (bad : TimeRange) (rest : List TimeRange)
    (hv : ¬req.has_video = false) (hf : ¬req.filename = "")
    (ha : ¬allowed_file req.filename = false) (ht : ¬req.timestamps = "")
    (hout : pyStrip req.outputPath = "")
    (hparse : parse_timestamp_ranges req.timestamps = .ok (done ++ bad :: rest))
    (hdone : allCopyOk env false (jobOp req) env.temp_dir (jobIp env req) (jobFw req)
      done 1 = true)
    (h1 : (env.cutter (copyCmdOf env false (jobOp req) env.temp_dir (jobIp env req)
      (jobFw req) (1 + done.length) bad)).1 ≠ 0)
    (h2 : (env.cutter (reencodeCmdOf env false (jobOp req) env.temp_dir (jobIp env req)
      (jobFw req) (1 + done.length) bad)).1 ≠ 0)
    (hfresh : ∀ k, k < done.length →
      lookupC w.temp_clips (clipId env (1 + k)) = none)
    (hinj : ∀ k l, k < done.length → l < done.length →
      clipId env (1 + k) = clipId env (1 + l) → k = l) :
    (split_video env req w).2 = .errorResp 500 ("FFmpeg failed: " ++
      (env.cutter (reencodeCmdOf env false (jobOp req) env.temp_dir (jobIp env req)
        (jobFw req) (1 + done.length) bad)).2) ∧
    (split_video env req w).1.temp_clips =
      w.temp_clips ++ scratchEntries env env.temp_dir (jobFw req) done 1 ∧
    env.temp_dir ∉ (split_video env req w).1.dirs ∧
    ∀ e ∈ scratchEntries env env.temp_dir (jobFw req) done 1,
      e.2.temp_dir = env.temp_dir := by
  have hres : resolve_output env w (pyStrip req.outputPath) = .ok (false, w) := by
    rw [hout]
    rfl
  rw [split_video_run env req w false w (done ++ bad :: rest) hv hf ha ht hres hparse]
  rw [runRanges_copyRun env false (jobOp req) env.temp_dir (jobIp env req) (jobFw req)
    done (bad :: rest) 1 (stagedW env req w) [] hdone]
  rw [runRanges_cons_fail env false (jobOp req) env.temp_dir (jobIp env req) (jobFw req)
    bad rest (1 + done.length)
    (advanceCopy env false (jobOp req) env.temp_dir (jobIp env req) (jobFw req) done 1
      (stagedW env req w))
    ([] ++ descsCopy env false (jobFw req) done 1) h1 h2]
  refine ⟨rfl, ?_, ?_, scratchEntries_temp_dir env env.temp_dir (jobFw req) done 1⟩
  · show (rmtreeW _ env.temp_dir).temp_clips = _
    rw [rmtreeW_temp_clips]
    show (advanceCopy env false (jobOp req) env.temp_dir (jobIp env req) (jobFw req) done 1
      (stagedW env req w)).temp_clips = _
    rw [advanceCopy_temp_clips_false env (jobOp req) env.temp_dir (jobIp env req) (jobFw req)
      done 1 (stagedW env req w) hfresh hinj]
    rfl
  · exact not_mem_rmtreeW_dirs _ env.temp_dir

/-- C10 witness: the two-range scratch job whose second range fails on
both attempts returns the 500 yet leaves the first range's id
`"clip_1_1"` registered, pointing into the deleted scratch directory. -/
theorem split_video_c10_witness :
    (split_video envFail2 reqScratch2 wEmpty).2 =
      .errorResp 500 ("FFmpeg failed: " ++ "bad2") ∧
    (split_video envFail2 reqScratch2 wEmpty).1.temp_clips =
      [("clip_1_1", ⟨"/scratch/job1/My-1-[1_00 - 2_00].mp4",
        "My-1-[1_00 - 2_00].mp4", "/scratch/job1"⟩)] ∧
    envFail2.temp_dir ∉ (split_video envFail2 reqScratch2 wEmpty).1.dirs := by
  have h := split_video_c10 envFail2 reqScratch2 wEmpty
    [⟨60, 120, "1:00", "2:00"⟩] ⟨180, 240, "3:00", "4:00"⟩ []
    (by decide) (by decide) (by decide) (by decide) (by rfl) (by rfl)
    (by decide) (by decide) (by decide)
    (fun k hk => rfl) (fun k l hk hl _ => by simp at hk hl; omega)
  exact ⟨h.1, by rw [h.2.1]; rfl, h.2.2.1⟩
